import Mathlib

/-!
Shallow embedding of the caching / fetch / classification pipeline of
`us-tpd-tracker` (`pipeline/cache.py`, `pipeline/scrapers/base.py`,
`pipeline/classifier.py`, `pipeline/main.py`), together with theorems
settling the spec claims about it.

Python strings are modelled as `List Char`; Python `dict`s appearing as
JSON payloads are modelled as typed structures (absent keys and JSON
`null` are both `Option.none`).  The SHA-256 digests used as cache file
names (`url_hash`, `content_hash`) are taken as an arbitrary function
parameter `hash : String → String`: every claim here depends only on the
digest being a deterministic function of its input, never on its
concrete value.
-/

namespace UsTpd

/-! ### Python string primitives (`str.split`, `str.strip`, `in`, `str.join`) -/

/-- Characters treated as whitespace by Python `str.split()` / `str.strip()`
(space, tab, newline, carriage return, vertical tab, form feed). -/
def isPySpace (c : Char) : Bool :=
  c == ' ' || c == '\t' || c == '\n' || c == '\r' || c == '\x0b' || c == '\x0c'

/-- Python `s.split()` with no argument: split on runs of whitespace,
dropping empty pieces. -/
def pySplit (s : List Char) : List (List Char) :=
  (s.splitOnP isPySpace).filter (fun t => !t.isEmpty)

/-- Python `sep.join(ws)` for a one-character separator. -/
def joinSep (sep : Char) : List (List Char) → List Char
  | [] => []
  | [w] => w
  | w :: x :: ws => w ++ sep :: joinSep sep (x :: ws)

/-- Python `s.strip()`: remove leading and trailing whitespace. -/
def pyStrip (s : List Char) : List Char :=
  ((s.dropWhile isPySpace).reverse.dropWhile isPySpace).reverse

/-- Python `pat in s` substring test. -/
def containsSub (pat : List Char) : List Char → Bool
  | [] => pat.isEmpty
  | c :: rest => pat.isPrefixOf (c :: rest) || containsSub pat rest

/-- Python `str.lower()` on the basic latin range (all text the pipeline
lower-cases is ASCII).  Defined over `List Char` so that it reduces in the
kernel, unlike core `String.toLower`. -/
def lowerChar (c : Char) : Char :=
  if 65 ≤ c.toNat ∧ c.toNat ≤ 90 then Char.ofNat (c.toNat + 32) else c

def pyLower (s : List Char) : List Char := s.map lowerChar

/-! ### Config constants (`pipeline/config.py`) -/

def MAX_INPUT_TOKENS : Nat := 800

def MAX_RETRIES : Nat := 3

def BACKOFF_START_SECONDS : Nat := 10

def TECH_KEYWORDS : List String :=
  ["technology", "AI", "artificial intelligence", "semiconductor", "quantum",
   "6G", "biotech", "biotechnology", "nuclear", "fusion", "cyber", "digital",
   "chip", "data center", "cloud", "software", "manufacturing", "computing",
   "telecom", "telecommunications", "robotics", "space"]

def DEAL_KEYWORDS : List String :=
  ["prosperity", "trade deal", "partnership", "agreement", "investment",
   "bilateral", "memorandum", "MOU", "commitment", "contract", "deal",
   "cooperation", "framework", "pact", "accord"]

def PREFILTER_KEYWORDS : List String := TECH_KEYWORDS ++ DEAL_KEYWORDS

/-! ### Disk cache store (`pipeline/cache.py`)

A cache directory is modelled as an association list from file name to
file content; a write prepends and a read takes the first (most recent)
binding, which is observationally the overwrite-then-read behaviour of
`Path.write_text` / `Path.read_text`. -/

def storeGet {α : Type} (k : String) : List (String × α) → Option α
  | [] => none
  | (k2, v) :: rest => if k2 = k then some v else storeGet k rest

def storePut {α : Type} (k : String) (v : α) (store : List (String × α)) :
    List (String × α) :=
  (k, v) :: store

/-- Embedding of `cache.get_cached_page`: read the file named
`url_hash(url) + ".html"`, `none` on a miss.  `hash` stands for the
`url_hash` digest function. -/
def get_cached_page (hash : String → String) (cache : List (String × String))
    (url : String) : Option String :=
  storeGet (hash url ++ ".html") cache

/-- Embedding of `cache.save_cached_page`: write the page body under
`url_hash(url) + ".html"`. -/
def save_cached_page (hash : String → String) (cache : List (String × String))
    (url content : String) : List (String × String) :=
  storePut (hash url ++ ".html") content cache

/-- Embedding of `cache.get_cached_classification`: read the result stored
under `content_hash(raw_text) + ".json"` (the JSON-serialisation round trip
of the stored dict is taken as exact, so the store holds the typed result
directly). -/
def get_cached_classification {α : Type} (hash : String → String)
    (cache : List (String × α)) (raw_text : String) : Option α :=
  storeGet (hash raw_text ++ ".json") cache

/-- Embedding of `cache.save_cached_classification`. -/
def save_cached_classification {α : Type} (hash : String → String)
    (cache : List (String × α)) (raw_text : String) (result : α) :
    List (String × α) :=
  storePut (hash raw_text ++ ".json") result cache

/-! ### Fetcher cache key (`scrapers/base.py`, `fetch_page` lines 179-186)

`json.dumps(d, sort_keys=True)` is modelled on string-valued dicts: sort
the entries by key and serialise deterministically. -/

def insertByKey (kv : String × String) :
    List (String × String) → List (String × String)
  | [] => [kv]
  | p :: rest => if kv.1 < p.1 then kv :: p :: rest else p :: insertByKey kv rest

def sortByKey : List (String × String) → List (String × String)
  | [] => []
  | kv :: rest => insertByKey kv (sortByKey rest)

/-- Canonical (key-order-independent) serialisation of a string-valued
dict, standing for `json.dumps(d, sort_keys=True)`. -/
def json_dumps_sorted (d : List (String × String)) : String :=
  "\x7b" ++ String.intercalate ", "
    ((sortByKey d).map fun kv => "\x22" ++ kv.1 ++ "\x22: \x22" ++ kv.2 ++ "\x22")
    ++ "\x7d"

/-- Embedding of the cache-key computation at the top of
`BaseScraper.fetch_page`: start from the URL; if a (truthy, i.e. nonempty)
`json_body` is supplied the key becomes `url + "|" + dumps(body)`; if
(truthy) `params` are supplied the key is then assigned
`url + "?" + dumps(params)` — overwriting, not extending, the previous
value, exactly as the source does. -/
def build_cache_key (url : String)
    (json_body params : Option (List (String × String))) : String :=
  let cache_key := url
  let cache_key := match json_body with
    | some b => if b.isEmpty then cache_key else url ++ "|" ++ json_dumps_sorted b
    | none => cache_key
  match params with
  | some p => if p.isEmpty then cache_key else url ++ "?" ++ json_dumps_sorted p
  | none => cache_key

/-! ### Fetcher (`scrapers/base.py`, `BaseScraper.fetch_page` lines 167-239)

The HTTP layer is modelled by a script: the list of responses the network
would return to successive requests, consumed one per issued request.  A
response is either a final status-plus-body (after `httpx` has followed
any redirects) or a transport failure (`httpx.HTTPError` raised at request
time); an exhausted script also behaves as a transport failure.  Sleeps
from exponential backoff are accumulated in seconds; the per-host
rate-limit gate is modelled by the `lastRequest` table updated against an
abstract clock. -/

inductive HttpResponse where
  | status (code : Nat) (body : String)
  | transportError

structure FetchSt where
  pageCache : List (String × String)
  lastRequest : List (String × Nat)
  clock : Nat

/-- Embedding of `BaseScraper._rate_limit`: after the (possible) politeness
sleep, record the current time for the host. -/
def rateLimitUpdate (host : String) (st : FetchSt) : FetchSt :=
  { st with lastRequest := storePut host st.clock st.lastRequest,
            clock := st.clock + 1 }

structure FetchOut where
  result : Option String
  st : FetchSt
  script : List HttpResponse
  backoffSleeps : List Nat
  attemptsMade : Nat

/-- Embedding of the retry loop of `fetch_page` (lines 196-239):
`for attempt in range(MAX_RETRIES)`, with per-attempt rate limiting,
429 → backoff sleep of `BACKOFF_START_SECONDS * 2 ^ attempt` and retry
(even on the final attempt, matching the source), 404 and other 4xx →
immediate `None`; every remaining non-2xx status makes
`raise_for_status` raise (the client is built with `follow_redirects=True`,
an httpx ≥ 0.20 keyword, and from that release `raise_for_status` raises
`HTTPStatusError` for any non-2xx response), which — like a transport
error — backs off and retries unless this was the final attempt; a 2xx
response persists the body to the page cache and returns it. -/
def fetchLoop (hash : String → String) (cache_key host : String) :
    Nat → Nat → FetchSt → List HttpResponse → List Nat → Nat → FetchOut
  | 0, _, st, script, sleeps, made => ⟨none, st, script, sleeps, made⟩
  | left + 1, attempt, st, script, sleeps, made =>
    let st := rateLimitUpdate host st
    match script with
    | [] =>
      if attempt < MAX_RETRIES - 1 then
        fetchLoop hash cache_key host left (attempt + 1) st []
          (sleeps ++ [BACKOFF_START_SECONDS * 2 ^ attempt]) (made + 1)
      else ⟨none, st, [], sleeps, made + 1⟩
    | resp :: rest =>
      match resp with
      | .transportError =>
        if attempt < MAX_RETRIES - 1 then
          fetchLoop hash cache_key host left (attempt + 1) st rest
            (sleeps ++ [BACKOFF_START_SECONDS * 2 ^ attempt]) (made + 1)
        else ⟨none, st, rest, sleeps, made + 1⟩
      | .status code body =>
        if code = 429 then
          fetchLoop hash cache_key host left (attempt + 1) st rest
            (sleeps ++ [BACKOFF_START_SECONDS * 2 ^ attempt]) (made + 1)
        else if code = 404 then ⟨none, st, rest, sleeps, made + 1⟩
        else if 400 ≤ code ∧ code < 500 then ⟨none, st, rest, sleeps, made + 1⟩
        else if code < 200 ∨ 300 ≤ code then
          if attempt < MAX_RETRIES - 1 then
            fetchLoop hash cache_key host left (attempt + 1) st rest
              (sleeps ++ [BACKOFF_START_SECONDS * 2 ^ attempt]) (made + 1)
          else ⟨none, st, rest, sleeps, made + 1⟩
        else
          ⟨some body,
           { st with pageCache := save_cached_page hash st.pageCache cache_key body },
           rest, sleeps, made + 1⟩

/-- Embedding of `BaseScraper.fetch_page`: build the cache key, return a
cached body immediately on a hit (no request, no rate limiting, no state
change), otherwise run the retry loop.  `hostname` stands for
`urlparse(url).hostname`, with the source's `or url` fallback. -/
def fetch_page (hash : String → String) (hostname : String → Option String)
    (url : String) (json_body params : Option (List (String × String)))
    (st : FetchSt) (script : List HttpResponse) : FetchOut :=
  let cache_key := build_cache_key url json_body params
  match get_cached_page hash st.pageCache cache_key with
  | some cached => ⟨some cached, st, script, [], 0⟩
  | none =>
    let host := (hostname url).getD url
    fetchLoop hash cache_key host MAX_RETRIES 0 st script [] 0

/-- Fresh fetcher state: empty page cache, empty last-request table. -/
def emptyFetchSt : FetchSt := ⟨[], [], 0⟩

/-! ### Truncation (`classifier.truncate_text`) -/

/-- Markers scanned for in `truncate_text`'s detail-line pass
(`classifier.py` line 79). -/
def DETAIL_MARKERS : List String := ["$", "billion", "million", "—", "•", "-"]

/-- Embedding of `classifier.truncate_text` (classifier.py lines 60-91):
identity when the whitespace-split word count is within `max_tokens`,
otherwise first 500 words plus up to 20 stripped "detail" lines
(containing a marker and longer than 20 characters, skipping the first 5
lines), hard-truncated to `max_tokens` words if still over budget. -/
def truncate_text (text : List Char) (max_tokens : Nat := MAX_INPUT_TOKENS) :
    List Char :=
  let words := pySplit text
  if words.length ≤ max_tokens then text
  else
    let first_chunk := joinSep ' ' (words.take 500)
    let lines := text.splitOn '\n'
    let detail_lines := (lines.drop 5).filterMap fun line =>
      let stripped := pyStrip line
      if (DETAIL_MARKERS.any fun m => containsSub m.data stripped)
          && stripped.length > 20 then
        some stripped
      else none
    let detail_text := joinSep '\n' (detail_lines.take 20)
    let combined := first_chunk ++ "\n\n---\n\n".data ++ detail_text
    let combined_words := pySplit combined
    if combined_words.length > max_tokens then
      joinSep ' ' (combined_words.take max_tokens)
    else combined

/-- String-level wrapper for `truncate_text` (Lean `String`s carry a
`List Char`). -/
def truncateStr (s : String) (max_tokens : Nat := MAX_INPUT_TOKENS) : String :=
  String.mk (truncate_text s.data max_tokens)

/-! ### Data model (`pipeline/models.py`) -/

inductive DealType where
  | GOVERNMENT
  | BUSINESS
  | TRADE
deriving DecidableEq

inductive DealStatus where
  | ACTIVE
  | PENDING
  | COMPLETED
  | CANCELLED
  | REPORTED
deriving DecidableEq

/-- Embedding of `DealStatus(s)`: the enum lookup that raises `ValueError`
(modelled as `none`) on any string outside the five members. -/
def DealStatus.ofString : String → Option DealStatus
  | "ACTIVE" => some .ACTIVE
  | "PENDING" => some .PENDING
  | "COMPLETED" => some .COMPLETED
  | "CANCELLED" => some .CANCELLED
  | "REPORTED" => some .REPORTED
  | _ => none

structure SourceDocument where
  label : String
  url : String
deriving DecidableEq

structure RawDeal where
  title : String
  source_url : String
  source_id : String := ""
  snippet : String := ""
  raw_date : String := ""
  source_name : String := ""
deriving DecidableEq

structure Deal where
  id : String
  parent_id : Option String := none
  source_id : String := ""
  source_url : String
  title : String
  summary : String
  type : DealType
  status : DealStatus
  parties : List String := []
  deal_value_usd : Option Int := none
  country : String := "USA"
  date : String
  date_signed : Option String := none
  tags : List String := []
  sectors : List String := []
  signatories : List String := []
  source_documents : List SourceDocument := []
  commitment_details : Option String := none
deriving DecidableEq

/-- Per-run cost counters (the fields of `models.CostOptimization` that
`classify_page` mutates). -/
structure CostStats where
  prefilter_skipped : Nat := 0
  cache_hits : Nat := 0
  new_api_calls : Nat := 0
deriving DecidableEq

/-! ### Classification API payload

Typed model of the JSON dict returned by the extraction call.  `dict.get`
with a default is `Option.getD`; absent keys and JSON `null` are both
`none` (the source treats them identically everywhere a claim depends
on). -/

structure ParentData where
  title : Option String := none
  summary : Option String := none
  country_code : Option String := none
  date_signed : Option String := none
  signatories : Option (List String) := none
  sectors : Option (List String) := none
  total_value_usd : Option Int := none
  status : Option String := none
deriving DecidableEq

structure ChildData where
  title : Option String := none
  summary : Option String := none
  parties : Option (List String) := none
  deal_value_usd : Option Int := none
  sector : Option String := none
  commitment_details : Option String := none
  status : Option String := none
deriving DecidableEq

structure ApiData where
  is_tpd : Bool := false
  parent : ParentData := {}
  children : List ChildData := []
deriving DecidableEq

/-! ### Country watchlist (`pipeline/config.py`) -/

structure CountryInfo where
  key : String
  names : List String
  code : String
  formal_name : String

def COUNTRY_WATCHLIST : List CountryInfo :=
  [⟨"UK",
    ["United Kingdom", "UK", "U.K.", "Britain", "British", "Great Britain",
     "England"],
    "GBR", "United Kingdom of Great Britain and Northern Ireland"⟩,
   ⟨"Japan", ["Japan", "Japanese", "JPN"], "JPN", "Japan"⟩,
   ⟨"South Korea",
    ["South Korea", "Korea", "Korean", "Republic of Korea", "ROK", "R.O.K.",
     "S. Korea"],
    "KOR", "Republic of Korea"⟩]

/-- Embedding of `classifier._country_name_from_code`: first watchlist
entry with a matching ISO code, else the code itself. -/
def country_name_from_code (code : String) : String :=
  match COUNTRY_WATCHLIST.find? (fun info => info.code == code) with
  | some info => info.formal_name
  | none => code

/-! ### Classifier (`pipeline/classifier.py`) -/

/-- Python `pat in s` on strings. -/
def strContains (pat s : String) : Bool :=
  containsSub pat.data s.data

/-- Embedding of `classifier.passes_prefilter`: case-insensitive keyword
substring match over `title + " " + snippet`. -/
def passes_prefilter (raw : RawDeal) : Bool :=
  let text := pyLower (raw.title ++ " " ++ raw.snippet).data
  PREFILTER_KEYWORDS.any fun kw => containsSub (pyLower kw.data) text

/-- Python `f"{n:03d}"`: decimal, zero-padded to width 3. -/
def pad3 (n : Nat) : String :=
  let s := toString n
  if s.length < 3 then String.mk (List.replicate (3 - s.length) '0') ++ s else s

/-- Embedding of the child-building loop body of
`Classifier._parse_result` (classifier.py lines 295-316): `none` models
the `ValidationError` / `ValueError` caught and skipped by the loop (in
this typed payload the only failing conversion is `DealStatus(...)`). -/
def build_child (child_data : ChildData) (parent_id country_code : String)
    (raw : RawDeal) (i : Nat) : Option Deal :=
  let child_id := parent_id ++ "-" ++ pad3 (i + 1)
  match DealStatus.ofString (child_data.status.getD "ACTIVE") with
  | none => none
  | some status =>
    some { id := child_id
           parent_id := some parent_id
           source_url := raw.source_url
           title := child_data.title.getD ""
           summary := child_data.summary.getD ""
           type := .BUSINESS
           status := status
           parties := child_data.parties.getD []
           deal_value_usd := child_data.deal_value_usd
           country := country_code
           date := raw.raw_date
           sectors := match child_data.sector with
             | some s => if s = "" then [] else [s]
             | none => []
           commitment_details := child_data.commitment_details }

def build_children (children_data : List ChildData)
    (parent_id country_code : String) (raw : RawDeal) : List Deal :=
  children_data.enum.filterMap fun ic =>
    build_child ic.2 parent_id country_code raw ic.1

/-- Embedding of `Classifier._parse_result` (classifier.py lines 248-318).
The `parent_id_prefix` argument (`pfx` here) is accepted and unused,
exactly as in the source: the parent id is built from the country code and
the per-run counter. -/
def parse_result (data : ApiData) (raw : RawDeal) (pfx : String)
    (deal_counter : Nat) : Option Deal × List Deal :=
  if !data.is_tpd then (none, [])
  else
    let parent_data := data.parent
    let children_data := data.children
    let country_code := parent_data.country_code.getD "USA"
    let parent_id := "tpd-" ++ String.mk (pyLower country_code.data) ++ "-" ++
      toString deal_counter
    let parent_deal : Option Deal :=
      match DealStatus.ofString (parent_data.status.getD "ACTIVE") with
      | none => none
      | some status =>
        some { id := parent_id
               parent_id := none
               source_id := raw.source_id
               source_url := raw.source_url
               title := parent_data.title.getD raw.title
               summary := parent_data.summary.getD ""
               type := .TRADE
               status := status
               parties := ["United States", country_name_from_code country_code]
               deal_value_usd := parent_data.total_value_usd
               country := country_code
               date := if raw.raw_date = "" then parent_data.date_signed.getD ""
                       else raw.raw_date
               date_signed := parent_data.date_signed
               sectors := parent_data.sectors.getD []
               signatories := parent_data.signatories.getD []
               source_documents := [⟨raw.source_name ++ " source", raw.source_url⟩] }
    (parent_deal, build_children children_data parent_id country_code raw)

structure ClassifierState where
  cache : List (String × ApiData)
  stats : CostStats
deriving DecidableEq

deriving instance DecidableEq for Except

/-- Embedding of `Classifier.classify_page` (classifier.py lines 183-220).
Inputs beyond the source's own arguments model its environment: `hashC`
is the `content_hash` digest, `api_key` is `ANTHROPIC_API_KEY`
(`_get_client` calls `sys.exit(1)` — the `.error` outcome — when it is
unset), and `api_script` is the sequence of parse results the network
would hand back to successive `_call_api` invocations (`none` = malformed
or failed call).  The pipeline: pre-filter gate (skip counter), optional
truncation, classification-cache lookup (hit counter), lazy client
construction, API call, cache write plus new-call counter, parse. -/
def classify_page (hashC : String → String) (api_key : Option String)
    (prefilter_enabled truncation_enabled : Bool)
    (api_script : List (Option ApiData)) (raw : RawDeal) (page_text : String)
    (pfx : String) (deal_counter : Nat) (st : ClassifierState) :
    Except Unit ((Option Deal × List Deal) × ClassifierState × List (Option ApiData)) :=
  if prefilter_enabled && !passes_prefilter raw then
    .ok ((none, []),
         { st with stats :=
             { st.stats with prefilter_skipped := st.stats.prefilter_skipped + 1 } },
         api_script)
  else
    let text := if truncation_enabled then truncateStr page_text else page_text
    match get_cached_classification hashC st.cache text with
    | some cached =>
      .ok (parse_result cached raw pfx deal_counter,
           { st with stats :=
               { st.stats with cache_hits := st.stats.cache_hits + 1 } },
           api_script)
    | none =>
      match api_key with
      | none => .error ()
      | some _ =>
        match api_script with
        | [] => .ok ((none, []), st, [])
        | none :: rest => .ok ((none, []), st, rest)
        | some result :: rest =>
          .ok (parse_result result raw pfx deal_counter,
               { cache := save_cached_classification hashC st.cache text result,
                 stats :=
                   { st.stats with new_api_calls := st.stats.new_api_calls + 1 } },
               rest)

/-! ### Classification loop of `main` (`pipeline/main.py` lines 183-214) -/

/-- Embedding of the parent-merge loop (main.py lines 207-211): find the
first accumulated parent deal with the same country and extend its
source-document list; leave everything else untouched. -/
def merge_docs : List Deal → Deal → List Deal
  | [], _ => []
  | d :: ds, p =>
    if d.parent_id = none ∧ d.country = p.country then
      { d with source_documents := d.source_documents ++ p.source_documents } :: ds
    else d :: merge_docs ds p

/-- Embedding of the accumulation step of the classification loop
(main.py lines 201-214): a new-country parent is appended and its country
marked seen; a repeat-country parent is discarded except for its source
documents, which are merged into the existing parent; children are always
appended (when a parent was produced at all). -/
def accum_deals (all_deals : List Deal) (seen : List String) :
    Option Deal → List Deal → List Deal × List String
  | none, _ => (all_deals, seen)
  | some parent, children =>
    if parent.country ∈ seen then
      (merge_docs all_deals parent ++ children, seen)
    else
      ((all_deals ++ [parent]) ++ children, seen ++ [parent.country])

structure RunState where
  all_deals : List Deal
  seen : List String
  deal_counter : Nat
  cst : ClassifierState
  api_script : List (Option ApiData)
deriving DecidableEq

/-- Embedding of the per-candidate classification loop of `main` with its
`"tpd"` prefix argument: increment the counter, classify, accumulate.  A
`sys.exit` from the missing-credentials path propagates (`SystemExit` is
not an `Exception`, so the loop's per-item handler does not catch it) and
aborts the run. -/
def run_classify (hashC : String → String) (api_key : Option String)
    (prefilter_enabled truncation_enabled : Bool) :
    List (RawDeal × String) → RunState → Except Unit RunState
  | [], rs => .ok rs
  | (raw, page_text) :: rest, rs =>
    let deal_counter := rs.deal_counter + 1
    match classify_page hashC api_key prefilter_enabled truncation_enabled
        rs.api_script raw page_text "tpd" deal_counter rs.cst with
    | .error e => .error e
    | .ok ((parent, children), cst, script) =>
      let acc := accum_deals rs.all_deals rs.seen parent children
      run_classify hashC api_key prefilter_enabled truncation_enabled rest
        ⟨acc.1, acc.2, deal_counter, cst, script⟩

/-- Decidable success test for a run outcome. -/
def exceptOk {ε α : Type} : Except ε α → Bool
  | .ok _ => true
  | .error _ => false

/-- Candidate that an API-key-less run can survive: pre-filter rejected,
or (truncated) text already in the classification cache. -/
def offline_candidate_ok (hashC : String → String)
    (prefilter_enabled truncation_enabled : Bool)
    (cache : List (String × ApiData)) (c : RawDeal × String) : Prop :=
  (prefilter_enabled = true ∧ passes_prefilter c.1 = false) ∨
  get_cached_classification hashC cache
      (if truncation_enabled then truncateStr c.2 else c.2) ≠ none

/-- Number of parent deals (null `parent_id`) for a given country in an
output list. -/
def parents_for (c : String) (ds : List Deal) : Nat :=
  ds.countP fun d => d.parent_id.isNone && d.country == c

/-- Loop invariant of `main`'s classification loop: countries absent from
`seen_parent_countries` have no parent deal in the output, and no country
ever has more than one. -/
def DealInv (ds : List Deal) (seen : List String) : Prop :=
  ∀ c, (c ∉ seen → parents_for c ds = 0) ∧ parents_for c ds ≤ 1

/-! ### Concrete sample inputs used by counterexamples and witnesses -/

/-- Candidate that passes the keyword pre-filter (keyword `AI`). -/
def raw_japan : RawDeal :=
  { title := "Japan AI Partnership", source_url := "https://example.com" }

/-- Parseable API response marked not relevant. -/
def notRelevant : ApiData := { is_tpd := false }

def sample_raw : RawDeal :=
  { title := "US-Korea TPD", source_url := "https://example.com/kor",
    raw_date := "2025-10-29", source_name := "whitehouse" }

/-- Relevant payload with three children, the middle one carrying a status
outside the `DealStatus` enum (a per-child validation failure). -/
def sample_data : ApiData :=
  { is_tpd := true
    parent := { country_code := some "KOR", status := some "ACTIVE" }
    children :=
      [{ title := some "Korean Air Boeing Purchase", status := some "ACTIVE" },
       { title := some "Broken Child", status := some "SIGNED" },
       { title := some "AWS Cloud Investment", status := some "ACTIVE" }] }

/-- Relevant payload with no children, used to drive a parent through the
run loop from the cache. -/
def sample_data_kor : ApiData :=
  { is_tpd := true
    parent := { country_code := some "KOR", status := some "ACTIVE" }
    children := [] }

def sample_parent : Deal :=
  { id := "tpd-kor-1", parent_id := none, source_url := "https://a",
    title := "KOR TPD", summary := "", type := .TRADE, status := .ACTIVE,
    country := "KOR", date := "",
    source_documents := [⟨"whitehouse source", "https://a"⟩] }

def sample_parent2 : Deal :=
  { sample_parent with id := "tpd-kor-2",
                       source_documents := [⟨"ustr source", "https://b"⟩] }

/-! ### Facts about `pySplit` / `joinSep` -/

theorem splitOnP_chunk_chars {p : Char → Bool} :
    ∀ (s : List Char), ∀ t ∈ s.splitOnP p, ∀ c ∈ t, p c = false := by
  intro s
  induction s with
  | nil =>
    intro t ht c hc
    simp only [List.splitOnP_nil, List.mem_singleton] at ht
    subst ht
    exact absurd hc (List.not_mem_nil c)
  | cons x xs ih =>
    intro t ht c hc
    rw [List.splitOnP_cons] at ht
    by_cases hx : p x
    · rw [if_pos hx] at ht
      rcases List.mem_cons.mp ht with h | h
      · subst h; exact absurd hc (List.not_mem_nil c)
      · exact ih t h c hc
    · rw [if_neg hx] at ht
      cases hsp : xs.splitOnP p with
      | nil => exact absurd hsp (List.splitOnP_ne_nil p xs)
      | cons hd rest =>
        rw [hsp] at ht
        simp only [List.modifyHead, List.mem_cons] at ht
        rcases ht with h | h
        · subst h
          rcases List.mem_cons.mp hc with h | h
          · subst h; exact eq_false_of_ne_true hx
          · exact ih hd (hsp ▸ List.mem_cons_self hd rest) c h
        · exact ih t (hsp ▸ List.mem_cons_of_mem hd h) c hc

theorem pySplit_chunk_wf :
    ∀ (s : List Char), ∀ t ∈ pySplit s, t ≠ [] ∧ ∀ c ∈ t, isPySpace c = false := by
  intro s t ht
  have h := List.mem_filter.mp ht
  refine ⟨?_, splitOnP_chunk_chars s t h.1⟩
  intro hnil
  subst hnil
  simp at h

theorem splitOnP_joinSep {p : Char → Bool} {sep : Char} (hsep : p sep = true) :
    ∀ (ws : List (List Char)), ws ≠ [] →
      (∀ w ∈ ws, ∀ c ∈ w, p c = false) →
      (joinSep sep ws).splitOnP p = ws := by
  intro ws
  induction ws with
  | nil => intro h; exact absurd rfl h
  | cons w ws ih =>
    intro _ hwf
    cases ws with
    | nil =>
      show (joinSep sep [w]).splitOnP p = [w]
      exact List.splitOnP_eq_single p w
        (fun c hc => by simp [hwf w (List.mem_singleton_self w) c hc])
    | cons x tl =>
      show (w ++ sep :: joinSep sep (x :: tl)).splitOnP p = w :: x :: tl
      rw [List.splitOnP_first p w
        (fun c hc => by simp [hwf w (List.mem_cons_self w _) c hc]) sep hsep]
      rw [ih (List.cons_ne_nil x tl)
        (fun u hu c hc => hwf u (List.mem_cons_of_mem w hu) c hc)]

theorem pySplit_joinSep (ws : List (List Char))
    (hwf : ∀ w ∈ ws, w ≠ [] ∧ ∀ c ∈ w, isPySpace c = false) :
    pySplit (joinSep ' ' ws) = ws := by
  cases ws with
  | nil => rfl
  | cons w tl =>
    unfold pySplit
    rw [splitOnP_joinSep (by rfl) (w :: tl) (List.cons_ne_nil w tl)
      (fun u hu c hc => (hwf u hu).2 c hc)]
    exact List.filter_eq_self.mpr
      (fun u hu => by simp [(hwf u hu).1])

theorem pySplit_joinSep_take (s : List Char) (n : Nat) :
    pySplit (joinSep ' ' ((pySplit s).take n)) = (pySplit s).take n :=
  pySplit_joinSep ((pySplit s).take n)
    (fun w hw => pySplit_chunk_wf s w (List.take_subset n (pySplit s) hw))

/-! ### Facts about `truncate_text` -/

theorem truncate_text_id (text : List Char) (m : Nat)
    (h : (pySplit text).length ≤ m) : truncate_text text m = text := by
  simp only [truncate_text]
  rw [if_pos h]

theorem truncate_text_words_le (text : List Char) (m : Nat)
    (h : ¬ (pySplit text).length ≤ m) :
    (pySplit (truncate_text text m)).length ≤ m := by
  simp only [truncate_text]
  rw [if_neg h]
  split_ifs with hc
  · rw [pySplit_joinSep_take]
    rw [List.length_take]
    exact Nat.min_le_left _ _
  · omega

theorem truncate_text_idem (text : List Char) (m : Nat) :
    truncate_text (truncate_text text m) m = truncate_text text m := by
  by_cases h : (pySplit text).length ≤ m
  · rw [truncate_text_id text m h, truncate_text_id text m h]
  · exact truncate_text_id _ m (truncate_text_words_le text m h)

/-- C7: with the default budget, `truncate_text` is the identity on every
text of at most `MAX_INPUT_TOKENS` whitespace-split words; for longer texts
the output has at most `MAX_INPUT_TOKENS` words; and `truncate_text` is
idempotent, so identical inputs always yield identical outputs. -/
theorem claim_C7_truncate (text : List Char) :
    ((pySplit text).length ≤ MAX_INPUT_TOKENS → truncate_text text = text) ∧
    (MAX_INPUT_TOKENS < (pySplit text).length →
      (pySplit (truncate_text text)).length ≤ MAX_INPUT_TOKENS) ∧
    truncate_text (truncate_text text) = truncate_text text :=
  ⟨fun h => truncate_text_id text MAX_INPUT_TOKENS h,
   fun h => truncate_text_words_le text MAX_INPUT_TOKENS (by omega),
   truncate_text_idem text MAX_INPUT_TOKENS⟩

/-- Witness for C7: the identity part at the two-word text `"a b"`, and the
budget bound at a text of `801` one-letter words. -/
theorem claim_C7_truncate_witness :
    ((pySplit ['a', ' ', 'b']).length ≤ MAX_INPUT_TOKENS ∧
      truncate_text ['a', ' ', 'b'] = ['a', ' ', 'b']) ∧
    (MAX_INPUT_TOKENS < (pySplit (joinSep ' ' (List.replicate 801 ['a']))).length ∧
      (pySplit (truncate_text (joinSep ' ' (List.replicate 801 ['a'])))).length ≤
        MAX_INPUT_TOKENS) := by
  have hsplit : pySplit (joinSep ' ' (List.replicate 801 ['a'])) =
      List.replicate 801 ['a'] := by
    apply pySplit_joinSep
    intro w hw
    rw [List.eq_of_mem_replicate hw]
    exact ⟨by simp, by decide⟩
  have hlen : MAX_INPUT_TOKENS < (pySplit (joinSep ' ' (List.replicate 801 ['a']))).length := by
    rw [hsplit, List.length_replicate]
    decide
  exact ⟨⟨by decide, (claim_C7_truncate ['a', ' ', 'b']).1 (by decide)⟩,
    ⟨hlen, (claim_C7_truncate (joinSep ' ' (List.replicate 801 ['a']))).2.1 hlen⟩⟩

/-! ### Cache store and cache key claims -/

/-- C6: for every namespace, key and value, a cache put followed by a get
of the same key returns exactly the stored value, and performing the put a
second time with an identical value leaves the value returned by get
unchanged — shown for both the page cache and the classification cache. -/
theorem claim_C6_cache_idempotent {α : Type} (hash hashC : String → String)
    (pcache : List (String × String)) (ccache : List (String × α))
    (url content raw_text : String) (result : α) :
    get_cached_page hash (save_cached_page hash pcache url content) url =
      some content ∧
    get_cached_page hash
        (save_cached_page hash (save_cached_page hash pcache url content)
          url content) url =
      get_cached_page hash (save_cached_page hash pcache url content) url ∧
    get_cached_classification hashC
        (save_cached_classification hashC ccache raw_text result) raw_text =
      some result ∧
    get_cached_classification hashC
        (save_cached_classification hashC
          (save_cached_classification hashC ccache raw_text result)
          raw_text result) raw_text =
      get_cached_classification hashC
        (save_cached_classification hashC ccache raw_text result) raw_text := by
  refine ⟨?_, ?_, ?_, ?_⟩ <;>
    simp [get_cached_page, save_cached_page, get_cached_classification,
      save_cached_classification, storeGet, storePut]

/-- C1 (failing input): the cache-key computation of `fetch_page` drops the
JSON body whenever query params are also supplied — the `params` branch
overwrites the body-qualified key with `url + "?" + dumps(params)` — so two
calls with different JSON bodies but identical params share one page-cache
key, contradicting both the spec and `fetch_page`'s own docstring. -/
theorem claim_C1_cache_key_collision :
    build_cache_key "https://api.example.gov/search"
        (some [("query", "ai")]) (some [("page", "1")]) =
      build_cache_key "https://api.example.gov/search"
        (some [("query", "quantum")]) (some [("page", "1")]) ∧
    (some [("query", "ai")] : Option (List (String × String))) ≠
      some [("query", "quantum")] :=
  ⟨rfl, by decide⟩

/-! ### Fetcher lemmas and claims -/

theorem fetchLoop_pageCache (hash : String → String) (cache_key host : String) :
    ∀ (left attempt : Nat) (st : FetchSt) (script : List HttpResponse)
      (sleeps : List Nat) (made : Nat),
      (fetchLoop hash cache_key host left attempt st script sleeps made).st.pageCache
        = match (fetchLoop hash cache_key host left attempt st script sleeps made).result with
          | none => st.pageCache
          | some b => save_cached_page hash st.pageCache cache_key b := by
  intro left
  induction left with
  | zero => intro attempt st script sleeps made; rfl
  | succ left ih =>
    intro attempt st script sleeps made
    cases script with
    | nil =>
      simp only [fetchLoop]
      split_ifs
      · exact ih (attempt + 1) (rateLimitUpdate host st) [] _ _
      · rfl
    | cons resp rest =>
      cases resp with
      | transportError =>
        simp only [fetchLoop]
        split_ifs
        · exact ih (attempt + 1) (rateLimitUpdate host st) rest _ _
        · rfl
      | status code body =>
        simp only [fetchLoop]
        split_ifs
        · exact ih (attempt + 1) (rateLimitUpdate host st) rest _ _
        · rfl
        · rfl
        · exact ih (attempt + 1) (rateLimitUpdate host st) rest _ _
        · rfl
        · rfl

theorem fetchLoop_status_step (hash : String → String) (k host : String)
    (left attempt : Nat) (st : FetchSt) (code : Nat) (body : String)
    (rest : List HttpResponse) (sleeps : List Nat) (made : Nat) :
    fetchLoop hash k host (left + 1) attempt st
        (.status code body :: rest) sleeps made =
      (if code = 429 then
        fetchLoop hash k host left (attempt + 1) (rateLimitUpdate host st) rest
          (sleeps ++ [BACKOFF_START_SECONDS * 2 ^ attempt]) (made + 1)
      else if code = 404 then
        ⟨none, rateLimitUpdate host st, rest, sleeps, made + 1⟩
      else if 400 ≤ code ∧ code < 500 then
        ⟨none, rateLimitUpdate host st, rest, sleeps, made + 1⟩
      else if code < 200 ∨ 300 ≤ code then
        if attempt < MAX_RETRIES - 1 then
          fetchLoop hash k host left (attempt + 1) (rateLimitUpdate host st)
            rest (sleeps ++ [BACKOFF_START_SECONDS * 2 ^ attempt]) (made + 1)
        else ⟨none, rateLimitUpdate host st, rest, sleeps, made + 1⟩
      else
        ⟨some body,
         { rateLimitUpdate host st with
             pageCache := save_cached_page hash
               (rateLimitUpdate host st).pageCache k body },
         rest, sleeps, made + 1⟩) := rfl

/-- C4: on a cache miss, a `[429, 429, 200]` response sequence produces
exactly the two backoff sleeps `base * 2 ^ 0` and `base * 2 ^ 1` and
returns the body on the third attempt; `MAX_RETRIES` consecutive 5xx, and
likewise `MAX_RETRIES` consecutive transport failures, return `None`
having consumed exactly `MAX_RETRIES` responses and no more; and any 4xx
status other than 429 (404 included) returns `None` on that very attempt,
with no retry and no backoff sleep. -/
theorem claim_C4_retry_backoff :
    ((fetch_page (fun s => s) (fun _ => none) "u" none none emptyFetchSt
        [.status 429 "", .status 429 "", .status 200 "B"]).result = some "B" ∧
     (fetch_page (fun s => s) (fun _ => none) "u" none none emptyFetchSt
        [.status 429 "", .status 429 "", .status 200 "B"]).backoffSleeps =
       [BACKOFF_START_SECONDS * 2 ^ 0, BACKOFF_START_SECONDS * 2 ^ 1] ∧
     (fetch_page (fun s => s) (fun _ => none) "u" none none emptyFetchSt
        [.status 429 "", .status 429 "", .status 200 "B"]).attemptsMade = 3 ∧
     (fetch_page (fun s => s) (fun _ => none) "u" none none emptyFetchSt
        [.status 429 "", .status 429 "", .status 200 "B"]).script = []) ∧
    ((fetch_page (fun s => s) (fun _ => none) "u" none none emptyFetchSt
        [.status 500 "", .status 500 "", .status 500 ""]).result = none ∧
     (fetch_page (fun s => s) (fun _ => none) "u" none none emptyFetchSt
        [.status 500 "", .status 500 "", .status 500 ""]).attemptsMade = MAX_RETRIES ∧
     (fetch_page (fun s => s) (fun _ => none) "u" none none emptyFetchSt
        [.status 500 "", .status 500 "", .status 500 ""]).script = []) ∧
    ((fetch_page (fun s => s) (fun _ => none) "u" none none emptyFetchSt
        [.transportError, .transportError, .transportError]).result = none ∧
     (fetch_page (fun s => s) (fun _ => none) "u" none none emptyFetchSt
        [.transportError, .transportError, .transportError]).attemptsMade = MAX_RETRIES) ∧
    (∀ (hash : String → String) (hostname : String → Option String)
       (url : String) (code : Nat) (body : String) (rest : List HttpResponse)
       (st : FetchSt),
      get_cached_page hash st.pageCache (build_cache_key url none none) = none →
      400 ≤ code → code < 500 → code ≠ 429 →
      (fetch_page hash hostname url none none st (.status code body :: rest)).result = none ∧
      (fetch_page hash hostname url none none st (.status code body :: rest)).script = rest ∧
      (fetch_page hash hostname url none none st (.status code body :: rest)).attemptsMade = 1 ∧
      (fetch_page hash hostname url none none st (.status code body :: rest)).backoffSleeps = []) := by
  refine ⟨⟨rfl, rfl, rfl, rfl⟩, ⟨rfl, rfl, rfl⟩, ⟨rfl, rfl⟩, ?_⟩
  intro hash hostname url code body rest st hmiss h4 h5 hne
  simp only [fetch_page, hmiss]
  rw [show MAX_RETRIES = 2 + 1 from rfl]
  rw [fetchLoop_status_step]
  rw [if_neg hne]
  by_cases h404 : code = 404
  · rw [if_pos h404]
    exact ⟨rfl, rfl, rfl, rfl⟩
  · rw [if_neg h404, if_pos ⟨h4, h5⟩]
    exact ⟨rfl, rfl, rfl, rfl⟩

/-- Witness for C4's universally-quantified 4xx part, at status 403 against
an empty cache. -/
theorem claim_C4_retry_backoff_witness :
    get_cached_page (fun s => s) emptyFetchSt.pageCache
        (build_cache_key "u" none none) = none ∧
    (fetch_page (fun s => s) (fun _ => none) "u" none none emptyFetchSt
        [.status 403 "x", .status 200 "y"]).result = none ∧
    (fetch_page (fun s => s) (fun _ => none) "u" none none emptyFetchSt
        [.status 403 "x", .status 200 "y"]).script = [.status 200 "y"] :=
  ⟨rfl,
   (claim_C4_retry_backoff.2.2.2 (fun s => s) (fun _ => none) "u" 403 "x"
      [.status 200 "y"] emptyFetchSt rfl (by omega) (by omega) (by omega)).1,
   (claim_C4_retry_backoff.2.2.2 (fun s => s) (fun _ => none) "u" 403 "x"
      [.status 200 "y"] emptyFetchSt rfl (by omega) (by omega) (by omega)).2.1⟩

/-- C5: after a cache-miss `fetch_page` for a URL succeeds with a 2xx
response, a second `fetch_page` with the same URL, body and params returns
the identical cached body while consuming no scripted response (zero
network requests), recording no backoff sleep and no rate-limit activity
(`attemptsMade = 0`), and returning the state — page cache, host
last-request-time table and clock — entirely unchanged. -/
theorem claim_C5_warm_cache (hash : String → String)
    (hostname : String → Option String) (url : String)
    (json_body params : Option (List (String × String))) (st : FetchSt)
    (code : Nat) (body : String) (rest : List HttpResponse)
    (hmiss : get_cached_page hash st.pageCache
      (build_cache_key url json_body params) = none)
    (h2 : 200 ≤ code) (h3 : code < 300) :
    (fetch_page hash hostname url json_body params st
        (.status code body :: rest)).result = some body ∧
    (fetch_page hash hostname url json_body params st
        (.status code body :: rest)).script = rest ∧
    (∀ script₂,
      fetch_page hash hostname url json_body params
          (fetch_page hash hostname url json_body params st
            (.status code body :: rest)).st script₂ =
        ⟨some body,
         (fetch_page hash hostname url json_body params st
            (.status code body :: rest)).st,
         script₂, [], 0⟩) := by
  have hstep : fetch_page hash hostname url json_body params st
      (.status code body :: rest) =
      ⟨some body,
       { rateLimitUpdate ((hostname url).getD url) st with
           pageCache := save_cached_page hash st.pageCache
             (build_cache_key url json_body params) body },
       rest, [], 1⟩ := by
    simp only [fetch_page, hmiss]
    rw [show MAX_RETRIES = 2 + 1 from rfl]
    rw [fetchLoop_status_step]
    rw [if_neg (by omega), if_neg (by omega), if_neg (by omega), if_neg (by omega)]
    rfl
  refine ⟨by rw [hstep], by rw [hstep], ?_⟩
  intro script₂
  rw [hstep]
  simp [fetch_page, get_cached_page, save_cached_page, storeGet, storePut]

/-- Witness for C5 at a concrete 200-response fetch against an empty
cache. -/
theorem claim_C5_warm_cache_witness :
    get_cached_page (fun s => s) emptyFetchSt.pageCache
        (build_cache_key "u" none none) = none ∧
    (fetch_page (fun s => s) (fun _ => none) "u" none none emptyFetchSt
        [.status 200 "B"]).result = some "B" ∧
    fetch_page (fun s => s) (fun _ => none) "u" none none
        (fetch_page (fun s => s) (fun _ => none) "u" none none emptyFetchSt
          [.status 200 "B"]).st [] =
      ⟨some "B",
       (fetch_page (fun s => s) (fun _ => none) "u" none none emptyFetchSt
          [.status 200 "B"]).st,
       [], [], 0⟩ :=
  ⟨rfl,
   (claim_C5_warm_cache (fun s => s) (fun _ => none) "u" none none emptyFetchSt
      200 "B" [] rfl (by omega) (by omega)).1,
   (claim_C5_warm_cache (fun s => s) (fun _ => none) "u" none none emptyFetchSt
      200 "B" [] rfl (by omega) (by omega)).2.2 []⟩

theorem fetchLoop_some_2xx (hash : String → String) (cache_key host : String) :
    ∀ (left attempt : Nat) (st : FetchSt) (script : List HttpResponse)
      (sleeps : List Nat) (made : Nat) (b : String),
      (fetchLoop hash cache_key host left attempt st script sleeps made).result
        = some b →
      ∃ code, 200 ≤ code ∧ code < 300 ∧ HttpResponse.status code b ∈ script := by
  intro left
  induction left with
  | zero =>
    intro attempt st script sleeps made b h
    exact Option.noConfusion h
  | succ left ih =>
    intro attempt st script sleeps made b h
    cases script with
    | nil =>
      simp only [fetchLoop] at h
      split_ifs at h
      obtain ⟨code, h1, h2, h3⟩ := ih _ _ _ _ _ b h
      exact absurd h3 (List.not_mem_nil _)
    | cons resp rest =>
      cases resp with
      | transportError =>
        simp only [fetchLoop] at h
        split_ifs at h
        obtain ⟨code, h1, h2, h3⟩ := ih _ _ _ _ _ b h
        exact ⟨code, h1, h2, List.mem_cons_of_mem _ h3⟩
      | status code body =>
        simp only [fetchLoop] at h
        split_ifs at h with h429 h404 h4xx hn2xx hatt
        · obtain ⟨c2, h1, h2, h3⟩ := ih _ _ _ _ _ b h
          exact ⟨c2, h1, h2, List.mem_cons_of_mem _ h3⟩
        · obtain ⟨c2, h1, h2, h3⟩ := ih _ _ _ _ _ b h
          exact ⟨c2, h1, h2, List.mem_cons_of_mem _ h3⟩
        · obtain rfl := Option.some.inj h
          exact ⟨code, by omega, by omega, List.mem_cons_self _ _⟩

/-- C9: whenever a cache-miss `fetch_page` returns `None` — on a 404, on
another non-429 4xx, or after the retry ceiling is exhausted for
429/5xx/transport failures — no page-cache entry is written for that key:
the page cache is left unchanged and a later call with the same key is
again a cache miss that re-enters the network retry loop; and any body
that is persisted is one the network returned with a 2xx status
(`raise_for_status` under httpx ≥ 0.20 turns every other status into a
retried error), so only a 2xx body is ever persisted to the page cache. -/
theorem claim_C9_only_2xx_persisted (hash : String → String)
    (hostname : String → Option String) (url : String)
    (json_body params : Option (List (String × String))) (st : FetchSt)
    (script : List HttpResponse)
    (hmiss : get_cached_page hash st.pageCache
      (build_cache_key url json_body params) = none) :
    ((fetch_page hash hostname url json_body params st script).result = none →
      (fetch_page hash hostname url json_body params st script).st.pageCache =
        st.pageCache ∧
      get_cached_page hash
          (fetch_page hash hostname url json_body params st script).st.pageCache
          (build_cache_key url json_body params) = none ∧
      (∀ script₂,
        fetch_page hash hostname url json_body params
            (fetch_page hash hostname url json_body params st script).st script₂ =
          fetchLoop hash (build_cache_key url json_body params)
            ((hostname url).getD url) MAX_RETRIES 0
            (fetch_page hash hostname url json_body params st script).st
            script₂ [] 0)) ∧
    (∀ b, (fetch_page hash hostname url json_body params st script).result = some b →
      (fetch_page hash hostname url json_body params st script).st.pageCache =
        save_cached_page hash st.pageCache
          (build_cache_key url json_body params) b ∧
      ∃ code, 200 ≤ code ∧ code < 300 ∧
        HttpResponse.status code b ∈ script) := by
  have hpc := fetchLoop_pageCache hash (build_cache_key url json_body params)
    ((hostname url).getD url) MAX_RETRIES 0 st script [] 0
  have hout : fetch_page hash hostname url json_body params st script =
      fetchLoop hash (build_cache_key url json_body params)
        ((hostname url).getD url) MAX_RETRIES 0 st script [] 0 := by
    simp only [fetch_page, hmiss]
  constructor
  · intro hres
    rw [hout] at hres ⊢
    rw [hres] at hpc
    refine ⟨hpc, ?_, ?_⟩
    · rw [hpc]; exact hmiss
    · intro script₂
      simp only [fetch_page, hpc, hmiss]
  · intro b hres
    rw [hout] at hres ⊢
    rw [hres] at hpc
    exact ⟨hpc, fetchLoop_some_2xx hash (build_cache_key url json_body params)
      ((hostname url).getD url) MAX_RETRIES 0 st script [] 0 b hres⟩

/-- Witness for C9 at a concrete 404 and a concrete 200. -/
theorem claim_C9_only_2xx_persisted_witness :
    get_cached_page (fun s => s) emptyFetchSt.pageCache
        (build_cache_key "u" none none) = none ∧
    (fetch_page (fun s => s) (fun _ => none) "u" none none emptyFetchSt
        [.status 404 ""]).result = none ∧
    (fetch_page (fun s => s) (fun _ => none) "u" none none emptyFetchSt
        [.status 404 ""]).st.pageCache = emptyFetchSt.pageCache ∧
    (fetch_page (fun s => s) (fun _ => none) "u" none none emptyFetchSt
        [.status 200 "B"]).result = some "B" ∧
    (fetch_page (fun s => s) (fun _ => none) "u" none none emptyFetchSt
        [.status 200 "B"]).st.pageCache =
      save_cached_page (fun s => s) emptyFetchSt.pageCache
        (build_cache_key "u" none none) "B" ∧
    (∃ code, 200 ≤ code ∧ code < 300 ∧
      HttpResponse.status code "B" ∈
        [HttpResponse.status 200 "B"]) :=
  ⟨rfl, rfl,
   ((claim_C9_only_2xx_persisted (fun s => s) (fun _ => none) "u" none none
      emptyFetchSt [.status 404 ""] rfl).1 rfl).1,
   rfl,
   ((claim_C9_only_2xx_persisted (fun s => s) (fun _ => none) "u" none none
      emptyFetchSt [.status 200 "B"] rfl).2 "B" rfl).1,
   ((claim_C9_only_2xx_persisted (fun s => s) (fun _ => none) "u" none none
      emptyFetchSt [.status 200 "B"] rfl).2 "B" rfl).2⟩

/-! ### Classifier claims -/

/-- C2 (counterexample): a parseable response with `is_tpd = false` yields
no parent and no child records, but — contrary to the claim — the result
IS written to the classification cache and the new-call counter IS
incremented (`classify_page` saves and counts before checking relevance). -/
theorem claim_C2_counterexample :
    classify_page (fun s => s) (some "k") true true [some notRelevant]
        raw_japan "t" "tpd" 1 ⟨[], {}⟩ =
      .ok ((none, []),
           ⟨save_cached_classification (fun s => s) [] (truncateStr "t") notRelevant,
            { prefilter_skipped := 0, cache_hits := 0, new_api_calls := 1 }⟩,
           []) ∧
    notRelevant.is_tpd = false ∧
    save_cached_classification (fun s => s) [] (truncateStr "t") notRelevant ≠ [] :=
  ⟨by decide, rfl, by simp [save_cached_classification, storePut]⟩

/-- C2 (amended): a parseable not-relevant response still terminates with
no parent and no child records, but the cache write and the new-call
increment happen for every successful parseable response regardless of its
relevance flag; only pre-filter skips, cache hits and malformed responses
bypass them. -/
theorem claim_C2_amended (hashC : String → String) (key : String)
    (prefilter_enabled truncation_enabled : Bool) (data : ApiData)
    (rest : List (Option ApiData)) (raw : RawDeal) (page_text pfx : String)
    (deal_counter : Nat) (st : ClassifierState)
    (hpre : (prefilter_enabled && !passes_prefilter raw) = false)
    (hmiss : get_cached_classification hashC st.cache
      (if truncation_enabled then truncateStr page_text else page_text) = none) :
    classify_page hashC (some key) prefilter_enabled truncation_enabled
        (some data :: rest) raw page_text pfx deal_counter st =
      .ok (parse_result data raw pfx deal_counter,
           ⟨save_cached_classification hashC st.cache
              (if truncation_enabled then truncateStr page_text else page_text)
              data,
            { st.stats with new_api_calls := st.stats.new_api_calls + 1 }⟩,
           rest) ∧
    (data.is_tpd = false →
      parse_result data raw pfx deal_counter = (none, [])) := by
  constructor
  · simp only [classify_page]
    rw [hpre]
    simp only [Bool.false_eq_true, if_false, hmiss]
  · intro h
    simp [parse_result, h]

/-- Witness for C2 (amended) at the not-relevant sample. -/
theorem claim_C2_amended_witness :
    (true && !passes_prefilter raw_japan) = false ∧
    get_cached_classification (fun s => s) ([] : List (String × ApiData))
        (if true then truncateStr "t" else "t") = none ∧
    classify_page (fun s => s) (some "k") true true [some notRelevant]
        raw_japan "t" "tpd" 1 ⟨[], {}⟩ =
      .ok (parse_result notRelevant raw_japan "tpd" 1,
           ⟨save_cached_classification (fun s => s) []
              (if true then truncateStr "t" else "t") notRelevant,
            { ({} : CostStats) with new_api_calls := ({} : CostStats).new_api_calls + 1 }⟩,
           []) :=
  ⟨by decide, rfl,
   (claim_C2_amended (fun s => s) "k" true true notRelevant [] raw_japan "t"
      "tpd" 1 ⟨[], {}⟩ (by decide) rfl).1⟩

theorem classify_page_none_key (hashC : String → String)
    (prefilter_enabled truncation_enabled : Bool)
    (api_script : List (Option ApiData)) (raw : RawDeal)
    (page_text pfx : String) (deal_counter : Nat) (st : ClassifierState) :
    classify_page hashC none prefilter_enabled truncation_enabled api_script
        raw page_text pfx deal_counter st =
      if prefilter_enabled && !passes_prefilter raw then
        .ok ((none, []),
             { st with stats :=
                 { st.stats with
                     prefilter_skipped := st.stats.prefilter_skipped + 1 } },
             api_script)
      else
        match get_cached_classification hashC st.cache
            (if truncation_enabled then truncateStr page_text else page_text) with
        | some cached =>
          .ok (parse_result cached raw pfx deal_counter,
               { st with stats :=
                   { st.stats with cache_hits := st.stats.cache_hits + 1 } },
               api_script)
        | none => .error () := rfl

/-- C3 (counterexample): with the API key missing, a run whose single
candidate hits the classification cache completes successfully and
produces its end-of-run state — the run does not fail fast at startup;
client construction (and its `sys.exit`) is lazy, reached only from an
actual external call. -/
theorem claim_C3_counterexample :
    run_classify (fun s => s) none true true [(raw_japan, "t")]
        ⟨[], [], 0,
         ⟨save_cached_classification (fun s => s) [] (truncateStr "t") notRelevant,
          {}⟩, []⟩ =
      .ok ⟨[], [], 1,
           ⟨save_cached_classification (fun s => s) [] (truncateStr "t") notRelevant,
            { prefilter_skipped := 0, cache_hits := 1, new_api_calls := 0 }⟩,
           []⟩ := by
  decide

/-- C3 (amended): with the API key missing the run does not fail at
startup: it succeeds exactly when every candidate is pre-filter-rejected
or served by the classification cache, and aborts (via the lazy client's
`sys.exit`) exactly when some candidate passes the pre-filter and misses
the cache — i.e. at the first external call, after all earlier candidates
have been processed. -/
theorem claim_C3_amended (hashC : String → String)
    (prefilter_enabled truncation_enabled : Bool) :
    ∀ (cands : List (RawDeal × String)) (rs : RunState),
      exceptOk (run_classify hashC none prefilter_enabled truncation_enabled
          cands rs) = true ↔
        ∀ c ∈ cands,
          offline_candidate_ok hashC prefilter_enabled truncation_enabled
            rs.cst.cache c := by
  intro cands
  induction cands with
  | nil =>
    intro rs
    simp [run_classify, exceptOk]
  | cons c rest ih =>
    intro rs
    obtain ⟨raw, page_text⟩ := c
    simp only [run_classify, classify_page_none_key]
    by_cases hskip : (prefilter_enabled && !passes_prefilter raw) = true
    · rw [if_pos hskip]
      rw [Bool.and_eq_true, Bool.not_eq_true'] at hskip
      simp only [List.mem_cons, forall_eq_or_imp]
      rw [ih]
      constructor
      · exact fun h => ⟨Or.inl hskip, h⟩
      · exact fun h => h.2
    · rw [if_neg hskip]
      cases hget : get_cached_classification hashC rs.cst.cache
          (if truncation_enabled then truncateStr page_text else page_text) with
      | some cached =>
        simp only [List.mem_cons, forall_eq_or_imp]
        rw [ih]
        constructor
        · refine fun h => ⟨Or.inr ?_, h⟩
          rw [hget]
          exact fun hc => Option.noConfusion hc
        · exact fun h => h.2
      | none =>
        simp only [exceptOk, List.mem_cons, forall_eq_or_imp]
        constructor
        · intro h
          exact absurd h (by simp)
        · intro h
          rcases h.1 with hl | hr
          · exact absurd (by rw [Bool.and_eq_true, Bool.not_eq_true']
                             exact ⟨hl.1, hl.2⟩) hskip
          · exact absurd hget hr

/-- Witness for C3 (amended): a key-less run over one cache-hit candidate
succeeds. -/
theorem claim_C3_amended_witness :
    exceptOk (run_classify (fun s => s) none true true [(raw_japan, "t")]
        ⟨[], [], 0,
         ⟨save_cached_classification (fun s => s) [] (truncateStr "t") notRelevant,
          {}⟩, []⟩) = true :=
  (claim_C3_amended (fun s => s) true true [(raw_japan, "t")]
      ⟨[], [], 0,
       ⟨save_cached_classification (fun s => s) [] (truncateStr "t") notRelevant,
        {}⟩, []⟩).mpr
    (by
      intro c hc
      rw [List.mem_singleton] at hc
      subst hc
      right
      decide)

/-- C8: for a relevant result, the parent id is derived from the country
code and the per-run counter (`tpd-<country>-<counter>`); each child built
from 0-based index `i` carries id `<parentId>-<zero-padded i+1>` (so the
first two children end in `-001` and `-002`) and references the parent via
`parent_id`; and a validation failure on one child skips only that child —
shown concretely on a three-child payload whose middle child has an
invalid status: the output keeps children `-001` and `-003`. -/
theorem claim_C8_record_ids (data : ApiData) (raw : RawDeal) (pfx : String)
    (deal_counter : Nat) (htpd : data.is_tpd = true) :
    (∀ p, (parse_result data raw pfx deal_counter).1 = some p →
      p.id = "tpd-" ++ String.mk (pyLower (data.parent.country_code.getD "USA").data)
        ++ "-" ++ toString deal_counter ∧ p.parent_id = none) ∧
    ((parse_result data raw pfx deal_counter).2 =
      build_children data.children
        ("tpd-" ++ String.mk (pyLower (data.parent.country_code.getD "USA").data)
          ++ "-" ++ toString deal_counter)
        (data.parent.country_code.getD "USA") raw) ∧
    (∀ (c : ChildData) (pid cc : String) (i : Nat) (d : Deal),
      build_child c pid cc raw i = some d →
      d.id = pid ++ "-" ++ pad3 (i + 1) ∧ d.parent_id = some pid) ∧
    ((parse_result sample_data sample_raw "tpd" 7).2.map (fun d => d.id) =
      ["tpd-kor-7-001", "tpd-kor-7-003"] ∧
     (parse_result sample_data sample_raw "tpd" 7).2.map (fun d => d.parent_id) =
      [some "tpd-kor-7", some "tpd-kor-7"]) := by
  refine ⟨?_, ?_, ?_, by decide, by decide⟩
  · intro p hp
    simp only [parse_result, htpd, Bool.not_true, Bool.false_eq_true, if_false] at hp
    cases hst : DealStatus.ofString (data.parent.status.getD "ACTIVE") with
    | none => rw [hst] at hp; cases hp
    | some status =>
      rw [hst] at hp
      obtain rfl := Option.some.inj hp
      exact ⟨rfl, rfl⟩
  · simp only [parse_result, htpd, Bool.not_true, Bool.false_eq_true, if_false]
  · intro c pid cc i d hbc
    simp only [build_child] at hbc
    cases hst : DealStatus.ofString (c.status.getD "ACTIVE") with
    | none => rw [hst] at hbc; cases hbc
    | some status =>
      rw [hst] at hbc
      obtain rfl := Option.some.inj hbc
      exact ⟨rfl, rfl⟩

/-- Witness for C8 at the three-child sample payload. -/
theorem claim_C8_record_ids_witness :
    sample_data.is_tpd = true ∧
    (parse_result sample_data sample_raw "tpd" 7).2.map (fun d => d.id) =
      ["tpd-kor-7-001", "tpd-kor-7-003"] ∧
    build_child { title := some "X", status := some "ACTIVE" } "tpd-kor-7"
        "KOR" sample_raw 1 =
      some { id := "tpd-kor-7-" ++ pad3 2
             parent_id := some "tpd-kor-7"
             source_url := sample_raw.source_url
             title := "X", summary := "", type := .BUSINESS, status := .ACTIVE
             country := "KOR", date := sample_raw.raw_date } ∧
    ("tpd-kor-7-" ++ pad3 2 = "tpd-kor-7-" ++ pad3 (1 + 1)) :=
  ⟨rfl, (claim_C8_record_ids sample_data sample_raw "tpd" 7 rfl).2.2.2.1,
   by decide,
   congrArg (fun n => "tpd-kor-7-" ++ pad3 n) rfl⟩

/-! ### Main-loop invariant lemmas and C10 -/

theorem merge_docs_parents_for (ds : List Deal) (p : Deal) (c : String) :
    parents_for c (merge_docs ds p) = parents_for c ds := by
  induction ds with
  | nil => rfl
  | cons d ds ih =>
    simp only [merge_docs]
    split_ifs with h
    · simp [parents_for, List.countP_cons]
    · simp only [parents_for, List.countP_cons] at ih ⊢
      omega

theorem build_children_parent_id (cd : List ChildData) (pid cc : String)
    (raw : RawDeal) :
    ∀ d ∈ build_children cd pid cc raw, d.parent_id = some pid := by
  intro d hd
  obtain ⟨ic, _hmem, hbc⟩ := List.mem_filterMap.mp hd
  simp only [build_child] at hbc
  cases hst : DealStatus.ofString (ic.2.status.getD "ACTIVE") with
  | none => rw [hst] at hbc; cases hbc
  | some status =>
    rw [hst] at hbc
    obtain rfl := Option.some.inj hbc
    rfl

theorem parse_result_children_isSome (data : ApiData) (raw : RawDeal)
    (pfx : String) (deal_counter : Nat) :
    ∀ d ∈ (parse_result data raw pfx deal_counter).2, d.parent_id.isSome := by
  intro d hd
  by_cases h : data.is_tpd
  · simp only [parse_result, h, Bool.not_true, Bool.false_eq_true, if_false] at hd
    rw [build_children_parent_id _ _ _ _ d hd]
    rfl
  · rw [Bool.not_eq_true] at h
    simp [parse_result, h] at hd

theorem classify_page_children_cases (hashC : String → String)
    (api_key : Option String) (prefilter_enabled truncation_enabled : Bool)
    (api_script : List (Option ApiData)) (raw : RawDeal)
    (page_text pfx : String) (deal_counter : Nat) (st : ClassifierState)
    (parent : Option Deal) (children : List Deal) (cst : ClassifierState)
    (script : List (Option ApiData))
    (h : classify_page hashC api_key prefilter_enabled truncation_enabled
      api_script raw page_text pfx deal_counter st =
      .ok ((parent, children), cst, script)) :
    children = [] ∨
      ∃ data, children = (parse_result data raw pfx deal_counter).2 := by
  simp only [classify_page] at h
  split_ifs at h
  · injection h with h1
    injection h1 with h2 h3
    injection h2 with hp hc
    exact Or.inl hc.symm
  · split at h
    · injection h with h1
      injection h1 with h2 h3
      exact Or.inr ⟨_, (congrArg Prod.snd h2).symm⟩
    · split at h
      · exact Except.noConfusion h
      · split at h
        · injection h with h1
          injection h1 with h2 h3
          injection h2 with hp hc
          exact Or.inl hc.symm
        · injection h with h1
          injection h1 with h2 h3
          injection h2 with hp hc
          exact Or.inl hc.symm
        · injection h with h1
          injection h1 with h2 h3
          exact Or.inr ⟨_, (congrArg Prod.snd h2).symm⟩
  · split at h
    · injection h with h1
      injection h1 with h2 h3
      exact Or.inr ⟨_, (congrArg Prod.snd h2).symm⟩
    · split at h
      · exact Except.noConfusion h
      · split at h
        · injection h with h1
          injection h1 with h2 h3
          injection h2 with hp hc
          exact Or.inl hc.symm
        · injection h with h1
          injection h1 with h2 h3
          injection h2 with hp hc
          exact Or.inl hc.symm
        · injection h with h1
          injection h1 with h2 h3
          exact Or.inr ⟨_, (congrArg Prod.snd h2).symm⟩

theorem classify_page_children_isSome (hashC : String → String)
    (api_key : Option String) (prefilter_enabled truncation_enabled : Bool)
    (api_script : List (Option ApiData)) (raw : RawDeal)
    (page_text pfx : String) (deal_counter : Nat) (st : ClassifierState)
    (parent : Option Deal) (children : List Deal) (cst : ClassifierState)
    (script : List (Option ApiData))
    (h : classify_page hashC api_key prefilter_enabled truncation_enabled
      api_script raw page_text pfx deal_counter st =
      .ok ((parent, children), cst, script)) :
    ∀ d ∈ children, d.parent_id.isSome := by
  rcases classify_page_children_cases hashC api_key prefilter_enabled
      truncation_enabled api_script raw page_text pfx deal_counter st parent
      children cst script h with hc | ⟨data, hc⟩
  · subst hc
    intro d hd
    cases hd
  · subst hc
    exact parse_result_children_isSome data raw pfx deal_counter

theorem parents_for_append (c : String) (a b : List Deal) :
    parents_for c (a ++ b) = parents_for c a + parents_for c b := by
  simp [parents_for, List.countP_append]

theorem accum_deals_inv (ds : List Deal) (seen : List String)
    (parent : Option Deal) (children : List Deal)
    (hch : ∀ d ∈ children, d.parent_id.isSome)
    (hinv : DealInv ds seen) :
    DealInv (accum_deals ds seen parent children).1
      (accum_deals ds seen parent children).2 := by
  have hch0 : ∀ c, parents_for c children = 0 := by
    intro c
    rw [parents_for, List.countP_eq_zero]
    intro d hd hpred
    rw [Bool.and_eq_true] at hpred
    have h1 := hpred.1
    rw [Option.isNone_iff_eq_none] at h1
    have h2 := hch d hd
    rw [h1] at h2
    exact Bool.noConfusion h2
  cases parent with
  | none => exact hinv
  | some p =>
    simp only [accum_deals]
    split_ifs with hseen
    · intro c
      have hm : parents_for c (merge_docs ds p ++ children) = parents_for c ds := by
        rw [parents_for_append, merge_docs_parents_for, hch0, Nat.add_zero]
      exact ⟨fun h => hm ▸ (hinv c).1 h, hm ▸ (hinv c).2⟩
    · intro c
      have hsplit : parents_for c ((ds ++ [p]) ++ children) =
          parents_for c ds + parents_for c [p] := by
        rw [parents_for_append, parents_for_append, hch0, Nat.add_zero]
      constructor
      · intro hc
        rw [List.mem_append, List.mem_singleton] at hc
        push_neg at hc
        have hp0 : parents_for c [p] = 0 := by
          have : (p.country == c) = false := by
            rw [beq_eq_false_iff_ne]
            exact fun h => hc.2 h.symm
          simp [parents_for, List.countP_cons, this]
        rw [hsplit, hp0, (hinv c).1 hc.1]
      · by_cases hc : c = p.country
        · have h0 : parents_for c ds = 0 := (hinv c).1 (hc ▸ hseen)
          have hp1 : parents_for c [p] ≤ 1 := by
            simp only [parents_for, List.countP_cons, List.countP_nil]
            split_ifs <;> omega
          rw [hsplit, h0, Nat.zero_add]
          exact hp1
        · have hp0 : parents_for c [p] = 0 := by
            have : (p.country == c) = false := by
              rw [beq_eq_false_iff_ne]
              exact fun h => hc h.symm
            simp [parents_for, List.countP_cons, this]
          rw [hsplit, hp0, Nat.add_zero]
          exact (hinv c).2

theorem run_classify_inv (hashC : String → String) (api_key : Option String)
    (prefilter_enabled truncation_enabled : Bool) :
    ∀ (cands : List (RawDeal × String)) (rs : RunState),
      DealInv rs.all_deals rs.seen →
      ∀ rs2, run_classify hashC api_key prefilter_enabled truncation_enabled
          cands rs = .ok rs2 →
        DealInv rs2.all_deals rs2.seen := by
  intro cands
  induction cands with
  | nil =>
    intro rs hinv rs2 h
    injection h with h1
    exact h1 ▸ hinv
  | cons c rest ih =>
    intro rs hinv rs2 hrun
    obtain ⟨raw, page_text⟩ := c
    simp only [run_classify] at hrun
    cases hcl : classify_page hashC api_key prefilter_enabled
        truncation_enabled rs.api_script raw page_text "tpd"
        (rs.deal_counter + 1) rs.cst with
    | error e =>
      rw [hcl] at hrun
      exact Except.noConfusion hrun
    | ok out =>
      obtain ⟨⟨parent, children⟩, cst, script⟩ := out
      rw [hcl] at hrun
      refine ih _ ?_ rs2 hrun
      exact accum_deals_inv rs.all_deals rs.seen parent children
        (classify_page_children_isSome hashC api_key prefilter_enabled
          truncation_enabled rs.api_script raw page_text "tpd"
          (rs.deal_counter + 1) rs.cst parent children cst script hcl) hinv

/-- C10: starting from the empty accumulator, any successful run of the
classification loop ends with at most one parent deal (null `parent_id`)
per country; and whenever a parent for an already-seen country is
produced, the accumulation step discards its record, merges only its
source documents into the existing parent of that country, and still
appends its child records. -/
theorem claim_C10_one_parent_per_country (hashC : String → String)
    (api_key : Option String) (prefilter_enabled truncation_enabled : Bool)
    (cands : List (RawDeal × String)) (st0 : ClassifierState)
    (script : List (Option ApiData)) :
    (∀ rs2, run_classify hashC api_key prefilter_enabled truncation_enabled
        cands ⟨[], [], 0, st0, script⟩ = .ok rs2 →
      ∀ c, parents_for c rs2.all_deals ≤ 1) ∧
    (∀ (ds : List Deal) (seen : List String) (p : Deal) (children : List Deal),
      p.country ∈ seen →
      accum_deals ds seen (some p) children =
        (merge_docs ds p ++ children, seen)) := by
  constructor
  · intro rs2 hrun c
    have hinv0 : DealInv [] ([] : List String) := by
      intro c2
      exact ⟨fun _ => rfl, by simp [parents_for]⟩
    exact (run_classify_inv hashC api_key prefilter_enabled truncation_enabled
      cands ⟨[], [], 0, st0, script⟩ hinv0 rs2 hrun c).2
  · intro ds seen p children hseen
    simp [accum_deals, hseen]

/-- Witness for C10: the empty run, and the repeat-country merge step at
two concrete KOR parents. -/
theorem claim_C10_one_parent_per_country_witness :
    run_classify (fun s => s) none true true []
        ⟨[], [], 0, ⟨[], {}⟩, []⟩ = .ok ⟨[], [], 0, ⟨[], {}⟩, []⟩ ∧
    parents_for "KOR" ((⟨[], [], 0, ⟨[], {}⟩, []⟩ : RunState).all_deals) ≤ 1 ∧
    sample_parent2.country ∈ ["KOR"] ∧
    accum_deals [sample_parent] ["KOR"] (some sample_parent2) [] =
      (merge_docs [sample_parent] sample_parent2 ++ [], ["KOR"]) :=
  ⟨rfl,
   (claim_C10_one_parent_per_country (fun s => s) none true true [] ⟨[], {}⟩
      []).1 ⟨[], [], 0, ⟨[], {}⟩, []⟩ rfl "KOR",
   by decide,
   (claim_C10_one_parent_per_country (fun s => s) none true true [] ⟨[], {}⟩
      []).2 [sample_parent] ["KOR"] sample_parent2 [] (by decide)⟩

end UsTpd
